import Mathlib

/-!
Verification development for the mr-reviewer repository: a shallow embedding
of the email poller (src/client/email_monitor.py), the dedupe storage
(src/utils/email_storage.py), the URL parser (src/utils/gitlab_client.py),
the pipeline orchestrator (src/client/orchestrator.py, src/main.py) and the
LLM prompt builders (src/servers/llm_rest_server.py, src/servers/llm_server.py),
together with theorems settling the specification claims.

Python strings are modelled as Lean `String` (a wrapper around `List Char`);
string scanning primitives (split, rstrip, substring search, the merge-request
URL regex) are implemented here directly on `List Char`, mirroring the Python
semantics used by the source.
-/

set_option maxRecDepth 4000

/-! ### String primitives (models of the Python operations used by the source) -/

/-- Model of Python `str.lower()` restricted to ASCII letters, which is all the
source ever lowercases (state names and English marker phrases). -/
def pyLower (s : String) : String := ⟨s.data.map Char.toLower⟩

/-- Boolean prefix test on character lists (model of `str.startswith` and the
anchoring steps of the regex / split scans). -/
def isPrefixB : List Char → List Char → Bool
  | [], _ => true
  | _ :: _, [] => false
  | a :: as, b :: bs => a == b && isPrefixB as bs

/-- Boolean contiguous-substring test (model of the Python `in` operator on
strings). -/
def isSubstring (needle : List Char) : List Char → Bool
  | [] => needle.isEmpty
  | c :: rest => isPrefixB needle (c :: rest) || isSubstring needle rest

/-- Model of Python `s.rstrip(ch)`: remove every trailing occurrence of the
single character `ch`. -/
def pyRstrip (ch : Char) (s : List Char) : List Char :=
  (s.reverse.dropWhile (fun c => c == ch)).reverse

/-- Model of Python `s.split(sep)` for a single-character separator `sep`
(splits at every occurrence, keeping empty pieces). -/
def pySplitChar (sep : Char) : List Char → List (List Char)
  | [] => [[]]
  | c :: rest =>
    if c == sep then [] :: pySplitChar sep rest
    else
      match pySplitChar sep rest with
      | [] => [[c]]
      | h :: t => (c :: h) :: t

/-- Model of Python `s.split(sep, maxsplit)` for a single-character separator:
at most `n` splits are performed, scanning left to right. -/
def pySplitCharN (sep : Char) : Nat → List Char → List (List Char)
  | _, [] => [[]]
  | 0, c :: rest => [c :: rest]
  | n + 1, c :: rest =>
    if c == sep then [] :: pySplitCharN sep n rest
    else
      match pySplitCharN sep (n + 1) rest with
      | [] => [[c]]
      | h :: t => (c :: h) :: t

/-- Worker for `splitOnList`: split at every non-overlapping occurrence of the
nonempty separator `s₀ :: sep`, scanning left to right (Python `str.split`
with a multi-character separator).  The `fuel` argument only makes the
recursion structural: whenever `fuel` is at least the input length — as at
the single call site — it never runs out, since each step consumes at least
one character. -/
def splitGo (s₀ : Char) (sep : List Char) : Nat → List Char → List (List Char)
  | _, [] => [[]]
  | 0, s => [s]
  | fuel + 1, c :: rest =>
    if isPrefixB (s₀ :: sep) (c :: rest) then
      [] :: splitGo s₀ sep fuel ((c :: rest).drop (s₀ :: sep).length)
    else
      match splitGo s₀ sep fuel rest with
      | [] => [[c]]
      | h :: t => (c :: h) :: t

/-- Model of Python `s.split(sep)` for an arbitrary separator string (Python
raises on an empty separator; that case never occurs in the source). -/
def splitOnList (sep s : List Char) : List (List Char) :=
  match sep with
  | [] => [s]
  | s₀ :: sep' => splitGo s₀ sep' s.length s

/-- Model of Python `int(s)` on the inputs the source feeds it: a nonempty
all-digit string parses to its value, anything else raises (modelled as
`none`).  Python `int` additionally tolerates surrounding whitespace, a sign
and underscores; the strings reaching `int` in this code path are URL path
segments, for which the two semantics agree on every successfully parsed
digit string. -/
def pyToNat (s : List Char) : Option Nat :=
  if s ≠ [] ∧ s.all Char.isDigit then
    some (s.foldl (fun a c => a * 10 + (c.toNat - 48)) 0)
  else none

/-! ### Email classification (EmailMonitor._is_gitlab_assignment_email) -/

/-- Marker phrases from `EmailMonitor._is_gitlab_assignment_email`
(src/client/email_monitor.py, `assignment_indicators`). -/
def assignment_indicators : List String :=
  ["was added as an assignee",
   "assigned you to merge request",
   "assigned merge request"]

/-- Model of `EmailMonitor._is_gitlab_assignment_email`: lowercase the
subject-plus-body text and test each marker with the Python `in` operator. -/
def is_gitlab_assignment_email (subject body : String) : Bool :=
  let text_to_check := pyLower (subject ++ " " ++ body)
  assignment_indicators.any (fun ind => isSubstring ind.data text_to_check.data)

/-! ### Dedupe storage (JSONEmailStorage, src/utils/email_storage.py) -/

/-- Model of `JSONEmailStorage`: the in-memory set of processed email ids
(a Python `set`, modelled as a duplicate-free-enough list with membership
insert). -/
structure JSONEmailStorage where
  processed_emails : List String
deriving DecidableEq

/-- Model of the persisted JSON file written by `JSONEmailStorage.save`:
a record with the id list and a timestamp. -/
structure StoredFile where
  processed_ids : List String
  last_updated : String
deriving DecidableEq

/-- Model of `JSONEmailStorage.add`: insert the id into the set. -/
def JSONEmailStorage.add (s : JSONEmailStorage) (email_id : String) : JSONEmailStorage :=
  ⟨s.processed_emails.insert email_id⟩

/-- Model of `JSONEmailStorage.contains`: set membership. -/
def JSONEmailStorage.containsId (s : JSONEmailStorage) (email_id : String) : Bool :=
  s.processed_emails.contains email_id

/-- Model of `JSONEmailStorage.save` on a successful write: the full contents
are written out together with a timestamp. -/
def JSONEmailStorage.save (s : JSONEmailStorage) (now : String) : StoredFile :=
  ⟨s.processed_emails, now⟩

/-- Model of constructing a fresh `JSONEmailStorage` over an existing file
(`load`, and equivalently `EmailMonitor._load_processed_emails`): the
`processed_ids` field is read back as the set. -/
def JSONEmailStorage.loadFrom (f : StoredFile) : JSONEmailStorage :=
  ⟨f.processed_ids⟩

/-! ### URL extraction (EmailMonitor._extract_gitlab_mr_url)

The source searches the body with the regular expression
`https?://[^\s<>]+/‑/merge_requests/\d+` (Python `re.search`: leftmost match,
greedy quantifiers with backtracking) and then strips trailing `>` and `.`
characters.  The matcher below implements exactly that pattern on character
lists: `reSearchMR` scans start positions left to right, and at each position
`matchUrlAt` matches the scheme literally and then takes the longest
`[^\s<>]+` body for which the literal `/‑/merge_requests/` segment followed by
at least one digit still matches, with `\d+` maximal. -/

/-- Characters matched by `\s` in the source regex (ASCII scope of Python
`\s`; the URLs and their delimiters in these notifications are ASCII). -/
def pyWhitespace : List Char := [' ', '\t', '\n', '\x0b', '\x0c', '\r']

/-- Character class `[^\s<>]` of the source regex. -/
def isUrlChar (c : Char) : Bool :=
  !(pyWhitespace.contains c || c == '<' || c == '>')

/-- Literal segment `/‑/merge_requests/` of the source regex (also the
separator used by `GitLabClient.parse_mr_url`). -/
def sepMR : List Char := "/-/merge_requests/".data

/-- Match the literal `/‑/merge_requests/` segment followed by a maximal
nonempty digit run (`\d+`) at the head of the input, returning the matched
characters. -/
def matchTailMR (s : List Char) : Option (List Char) :=
  if isPrefixB sepMR s then
    let ds := (s.drop sepMR.length).takeWhile Char.isDigit
    if ds.isEmpty then none else some (sepMR ++ ds)
  else none

/-- Match `[^\s<>]+/‑/merge_requests/\d+` at the head of the input with the
greedy backtracking semantics of the source regex: prefer the longest
`[^\s<>]+` run that still lets the rest of the pattern match. -/
def matchAfterScheme : List Char → Option (List Char)
  | [] => none
  | c :: rest =>
    if isUrlChar c then
      match matchAfterScheme rest with
      | some m => some (c :: m)
      | none =>
        match matchTailMR rest with
        | some m => some (c :: m)
        | none => none
    else none

/-- Scheme alternatives `https://` and `http://` of `https?://` (mutually
exclusive prefixes). -/
def httpsPrefix : List Char := "https://".data

/-- Plain `http://` scheme prefix. -/
def httpPrefix : List Char := "http://".data

/-- Match the whole regex anchored at the head of the input. -/
def matchUrlAt (s : List Char) : Option (List Char) :=
  if isPrefixB httpsPrefix s then
    (matchAfterScheme (s.drop httpsPrefix.length)).map (fun m => httpsPrefix ++ m)
  else if isPrefixB httpPrefix s then
    (matchAfterScheme (s.drop httpPrefix.length)).map (fun m => httpPrefix ++ m)
  else none

/-- Model of Python `re.search` for the source regex: try each start position
left to right and return the first match. -/
def reSearchMR : List Char → Option (List Char)
  | [] => none
  | c :: rest =>
    match matchUrlAt (c :: rest) with
    | some m => some m
    | none => reSearchMR rest

/-- Model of `EmailMonitor._extract_gitlab_mr_url`: regex search, then
`url.rstrip(">").rstrip(".")`. -/
def extract_gitlab_mr_url (email_body : String) : Option String :=
  match reSearchMR email_body.data with
  | some url => some ⟨pyRstrip '.' (pyRstrip '>' url)⟩
  | none => none

/-! ### Poll cycle (EmailMonitor.check_emails)

One cycle of `check_emails`, after a successful mailbox query, iterates over
the last 50 returned messages.  For each message it checks the dedupe set,
the client-side date filter, the classifier and the extractor, in that order,
and in every examined branch it adds the message id to the processed set; an
event is handed to the callback only in the successful extraction branch.
A failure to contact the mailbox aborts the whole cycle before or during the
iteration and is outside this per-cycle model. -/

/-- One candidate message as the cycle sees it: the IMAP message id (the
dedupe key), the decoded subject, the parsed Date header (`none` when
`_parse_email_date` fails) as an abstract instant, and the decoded body. -/
structure EmailMsg where
  id : String
  subject : String
  date : Option Int
  body : String
deriving DecidableEq

/-- State threaded through one poll cycle: the processed-id set, the events
handed to `on_mr_detected` (url, subject, date) in order, and the warnings
recorded for assignment messages without an extractable URL. -/
structure CycleState where
  processed : List String
  events : List (String × String × Option Int)
  warnings : List String
deriving DecidableEq

/-- Date gate of the cycle: a message is dropped as old when its Date header
parsed and is strictly before the monitor start time (an unparseable date
passes the gate, as in the source). -/
def dateBeforeStart (startTime : Int) : Option Int → Bool
  | some d => decide (d < startTime)
  | none => false

/-- Model of the per-message body of the `check_emails` loop. -/
def process_message (startTime : Int) (st : CycleState) (m : EmailMsg) : CycleState :=
  if m.id ∈ st.processed then st
  else if dateBeforeStart startTime m.date then
    { st with processed := st.processed.insert m.id }
  else if is_gitlab_assignment_email m.subject m.body then
    match extract_gitlab_mr_url m.body with
    | some url =>
      { st with
        processed := st.processed.insert m.id,
        events := st.events ++ [(url, m.subject, m.date)] }
    | none =>
      { st with
        processed := st.processed.insert m.id,
        warnings := st.warnings ++ [m.subject] }
  else { st with processed := st.processed.insert m.id }

/-- Model of Python `lst[-50:]` as used by `check_emails`. -/
def lastFifty (msgs : List EmailMsg) : List EmailMsg :=
  msgs.drop (msgs.length - 50)

/-- Model of one successful `check_emails` cycle over the mailbox search
result `msgs` (ascending IMAP order), starting from the processed set
`processed`. -/
def check_emails (startTime : Int) (processed : List String) (msgs : List EmailMsg) : CycleState :=
  (lastFifty msgs).foldl (process_message startTime) ⟨processed, [], []⟩

/-! ### Reference parsing (GitLabClient.parse_mr_url, src/utils/gitlab_client.py) -/

/-- Model of the static method `GitLabClient.parse_mr_url`:
split on the literal `/‑/merge_requests/`; require exactly two parts; split
the first part on `/` at most three times and require at least four pieces,
the fourth being the project path; take the second part up to the first `/`,
`?` or `#` and parse it as an integer.  Any failure (including the exception
from `int`) yields `None`. -/
def parse_mr_url (url : String) : Option (String × Nat) :=
  let parts := splitOnList sepMR url.data
  if parts.length = 2 then
    let project_part := pySplitCharN '/' 3 (parts.getD 0 [])
    if project_part.length < 4 then none
    else
      let project_id := project_part.getD 3 []
      let iidStr :=
        ((pySplitChar '#'
          ((pySplitChar '?'
            ((pySplitChar '/' (parts.getD 1 [])).getD 0 [])).getD 0 [])).getD 0 [])
      match pyToNat iidStr with
      | some mr_iid => some (⟨project_id⟩, mr_iid)
      | none => none
  else none

/-- Predicate modelled from the claim wording only (not from the source), for
comparison with `parse_mr_url`: the "expected URL shape" of a merge-request
reference is an http(s) URL, i.e. the string starts with a scheme
`http://` or `https://` followed by host, project path, the merge-request
segment and a numeric final segment. -/
def specHttpUrlShape (s : String) : Bool :=
  (isPrefixB httpsPrefix s.data || isPrefixB httpPrefix s.data) &&
  isSubstring sepMR s.data

/-! ### Pipeline orchestrator (MCPOrchestrator.process_merge_request)

The orchestrator makes five remote calls in order (parse url, fetch metadata,
fetch changes, summarize, post note), with the state gate between the second
and third.  Each call either yields usable data or fails; in the source a
failure is a falsy/empty tool result, a JSON payload carrying an `error` key,
or a raised transport exception caught by the enclosing handler — all three
make `process_merge_request` return `False` at that step, which is what
`ToolReply.fail` models.  The summarize call is special: the source only
checks that the reply has content and uses its text verbatim (it never looks
for an `error` key), so its reply is modelled as `Option String`. -/

/-- Stages of one orchestrator run, in call order. -/
inductive Stage where
  | parse
  | fetchMetadata
  | fetchChanges
  | summarize
  | postComment
deriving DecidableEq

/-- Reply of one remote tool call, as the orchestrator discriminates it. -/
inductive ToolReply (α : Type) where
  | fail : ToolReply α
  | ok : α → ToolReply α
deriving DecidableEq

/-- Merge-request metadata as returned by the `get_merge_request` tool and
consumed by the orchestrator. -/
structure MRMeta where
  title : String
  description : String
  state : String
  source_branch : String
  target_branch : String
deriving DecidableEq

/-- One per-file change as returned by the `get_merge_request_changes` tool
(the fields the prompt builders read). -/
structure Change where
  old_path : String
  new_path : String
  diff : String
deriving DecidableEq

/-- Responses of the external collaborators for one orchestrator run. -/
structure OrchestratorEnv where
  parseReply : ToolReply (String × Nat)
  metadataReply : ToolReply MRMeta
  changesReply : ToolReply (List Change)
  summarizeReply : Option String
  postReply : ToolReply Unit
deriving DecidableEq

/-- Terminal outcome of one orchestrator run.  The constructors correspond
one-to-one to the distinct exit points of `process_merge_request` (each with
its own log line); the Python return value is recovered by
`PipelineResult.toBool`. -/
inductive PipelineResult where
  | success
  | skippedState (state : String)
  | failed (stage : Stage)
deriving DecidableEq

/-- The boolean actually returned by `process_merge_request` (its docstring:
True if successful, False otherwise).  Note that a state-gate skip returns
the same `false` as every failure. -/
def PipelineResult.toBool : PipelineResult → Bool
  | .success => true
  | _ => false

/-- Model of `MCPOrchestrator.process_merge_request`: the outcome of the run
together with the ordered list of remote calls made.  `allowedStates` is
`config.mr_states_to_process`; the gate compares the lowercased metadata
state against it with the Python `in` operator. -/
def process_merge_request (allowedStates : List String) (env : OrchestratorEnv) :
    PipelineResult × List Stage :=
  match env.parseReply with
  | .fail => (.failed .parse, [.parse])
  | .ok _ =>
    match env.metadataReply with
    | .fail => (.failed .fetchMetadata, [.parse, .fetchMetadata])
    | .ok mr =>
      let mr_state := pyLower mr.state
      if mr_state ∈ allowedStates then
        match env.changesReply with
        | .fail => (.failed .fetchChanges, [.parse, .fetchMetadata, .fetchChanges])
        | .ok _ =>
          match env.summarizeReply with
          | none => (.failed .summarize, [.parse, .fetchMetadata, .fetchChanges, .summarize])
          | some _ =>
            match env.postReply with
            | .fail =>
              (.failed .postComment,
               [.parse, .fetchMetadata, .fetchChanges, .summarize, .postComment])
            | .ok _ =>
              (.success,
               [.parse, .fetchMetadata, .fetchChanges, .summarize, .postComment])
      else (.skippedState mr_state, [.parse, .fetchMetadata])

/-- Default of `config.mr_states_to_process` (config.py parses the env default
string "opened" into this list). -/
def defaultAllowedStates : List String := ["opened"]

/-- Model of how the queue consumer in main.py (`process_queue`) reports the
boolean returned by `process_merge_request`: `False` — including the
state-gate skip — is logged as a failure. -/
def queue_log_line (success : Bool) : String :=
  if success then "✅ Successfully processed MR" else "❌ Failed to process MR"

/-! ### Summarization prompt builders

`build_prompt_summarize` (src/servers/llm_rest_server.py) is the configured
path: it takes `max_files` and `max_lines` ceilings, whose config defaults are
999999 (`MAX_FILES_IN_PROMPT`, `MAX_DIFF_LINES_PER_FILE` in config.py).
`LocalLLMMCPServer._summarize_code_changes` (src/servers/llm_server.py) is the
MCP path: it hard-codes a 20-file cap and a 2000-character per-diff cap and
reads no configuration. -/

/-- Python `"\n".join(lines)`. -/
def joinWithNL : List (List Char) → List Char
  | [] => []
  | [l] => l
  | l :: h :: t => l ++ '\n' :: joinWithNL (h :: t)

/-- Concatenation of the per-file sections, mirroring the `prompt += section`
loop of both prompt builders. -/
def concatStrings : List String → String
  | [] => ""
  | s :: rest => s ++ concatStrings rest

/-- Config default of `MAX_FILES_IN_PROMPT` (config.py: effectively no
limit). -/
def maxFilesDefault : Nat := 999999

/-- Config default of `MAX_DIFF_LINES_PER_FILE` (config.py: effectively no
limit). -/
def maxDiffLinesDefault : Nat := 999999

/-- Python `description or "No description provided."` in the REST prompt
(empty string is falsy). -/
def descriptionOrDefault (description : String) : String :=
  if description == "" then "No description provided." else description

/-- Leading text of the REST summarize prompt, with the interpolated fields. -/
def restPromptHeader (title description source_branch target_branch : String) : String :=
  "You are a code review assistant. Please provide a concise, human-readable summary of the following merge request.\n\n**Merge Request Title:** "
  ++ title ++ "\n\n**Description:**\n" ++ descriptionOrDefault description
  ++ "\n\n**Branches:** `" ++ source_branch ++ "` → `" ++ target_branch
  ++ "` \n\n**Changes:**\n"

/-- Per-file heading of the REST prompt. -/
def fileHeaderLine (c : Change) : String :=
  if c.new_path == c.old_path then "\n### File: `" ++ c.new_path ++ "`\n"
  else "\n### File: `" ++ c.old_path ++ "` → `" ++ c.new_path ++ "`\n"

/-- Per-file truncation note of the REST prompt. -/
def diffTruncNote (total maxLines : Nat) : String :=
  "\n... (diff truncated: " ++ toString (total - maxLines) ++ " more lines)"

/-- One file section of the REST prompt: heading, fenced diff truncated to
`maxLines` lines, and the truncation note when lines were dropped. -/
def renderFileSection (maxLines : Nat) (c : Change) : String :=
  let diff_lines := pySplitChar '\n' c.diff.data
  let lines_to_include := min diff_lines.length maxLines
  fileHeaderLine c ++ "```diff\n" ++ ⟨joinWithNL (diff_lines.take lines_to_include)⟩
  ++ (if diff_lines.length > maxLines then diffTruncNote diff_lines.length maxLines else "")
  ++ "\n```\n"

/-- Dropped-files note of the REST prompt. -/
def moreFilesNote (total included : Nat) : String :=
  "\n... and " ++ toString (total - included) ++ " more files.\n"

/-- Trailing instructions of the REST summarize prompt. -/
def restPromptFooter : String :=
  "\n\nPlease provide a summary that includes:\n1. **Overview**: What is the main purpose of this MR?\n2. **Key Changes**: What are the most important changes?\n3. **Impact**: What areas of the codebase are affected?\n\nKeep the summary concise (3-5 sentences max) and focus on what reviewers need to know.\n"

/-- Model of `build_prompt_summarize` (llm_rest_server.py): include the first
`min (length changes) max_files` files, each diff truncated to `max_lines`
lines, with explicit notes when files or lines were dropped. -/
def build_prompt_summarize (title description : String) (changes : List Change)
    (source_branch target_branch : String) (max_files max_lines : Nat) : String :=
  let files_to_process := min changes.length max_files
  restPromptHeader title description source_branch target_branch
  ++ concatStrings ((changes.take files_to_process).map (renderFileSection max_lines))
  ++ (if changes.length > files_to_process then moreFilesNote changes.length files_to_process else "")
  ++ restPromptFooter

/-- One entry of the `files_summary` list built by
`LocalLLMMCPServer._summarize_code_changes`. -/
structure FileSummary where
  path : String
  additions : Nat
  deletions : Nat
  diff : String
deriving DecidableEq

/-- Model of one `files_summary` entry of `_summarize_code_changes`:
addition/deletion counts over the diff lines, and the diff text hard-truncated
to 2000 characters with a note. -/
def mcpFileSummary (c : Change) : FileSummary :=
  let diff_lines := pySplitChar '\n' c.diff.data
  { path := if c.new_path == "" then c.old_path else c.new_path,
    additions := (diff_lines.filter (fun l => isPrefixB ['+'] l)).length,
    deletions := (diff_lines.filter (fun l => isPrefixB ['-'] l)).length,
    diff :=
      if c.diff.length > 2000 then ⟨c.diff.data.take 2000⟩ ++ "\n... (truncated)"
      else c.diff }

/-- Model of the `changes[:20]` loop of `_summarize_code_changes`: only the
first 20 files are summarized, with no configured ceiling. -/
def mcpFilesSummary (changes : List Change) : List FileSummary :=
  (changes.take 20).map mcpFileSummary

/-- Leading text of the MCP user prompt, with the interpolated fields. -/
def mcpPromptIntro (title description : String) (nChanges : Nat)
    (source_branch target_branch : String) : String :=
  "Please summarize this merge request:\n\n**Title:** " ++ title
  ++ "\n\n**Description:**\n"
  ++ (if description == "" then "(No description provided)" else description)
  ++ "\n\n**Branch:** " ++ source_branch ++ " → " ++ target_branch
  ++ "\n\n**Files Changed:** " ++ toString nChanges ++ "\n\n**Changed Files:**\n"

/-- One per-file block of the MCP user prompt. -/
def mcpFileBlock (fs : FileSummary) : String :=
  "\n### " ++ fs.path ++ "\n"
  ++ "- Additions: " ++ toString fs.additions ++ ", Deletions: " ++ toString fs.deletions ++ "\n"
  ++ "```diff\n" ++ fs.diff ++ "\n```\n"

/-- Dropped-files note of the MCP user prompt (emitted whenever more than 20
changes arrived, regardless of any configuration). -/
def mcpMoreFilesNote (total : Nat) : String :=
  "\n... and " ++ toString (total - 20) ++ " more files\n"

/-- Model of the `user_prompt` built by `_summarize_code_changes`. -/
def mcp_summarize_user_prompt (title description : String) (changes : List Change)
    (source_branch target_branch : String) : String :=
  mcpPromptIntro title description changes.length source_branch target_branch
  ++ concatStrings ((mcpFilesSummary changes).map mcpFileBlock)
  ++ (if changes.length > 20 then mcpMoreFilesNote changes.length else "")
  ++ "\n\nProvide a clear, structured summary of these changes."

/-! ### Concrete fixtures used by witnesses and counterexamples -/

/-- Environment whose fetched metadata state is `merged`: every collaborator
answers, but the state gate is not satisfied under the default allow-list. -/
def envSkip : OrchestratorEnv :=
  ⟨.ok ("g/p", 24), .ok ⟨"Add feature", "", "merged", "feat", "main"⟩, .ok [], some "summary", .ok ()⟩

/-- Environment whose fetch-changes call fails, everything before it
succeeding with an allow-listed state. -/
def envChangesFail : OrchestratorEnv :=
  ⟨.ok ("g/p", 24), .ok ⟨"Add feature", "", "opened", "feat", "main"⟩, .fail, some "summary", .ok ()⟩

/-- Environment whose parse call fails. -/
def envParseFail : OrchestratorEnv :=
  ⟨.fail, .fail, .fail, none, .fail⟩

/-- A non-assignment message. -/
def msgNoise : EmailMsg := ⟨"1", "weekly digest", some 5, "nothing relevant here"⟩

/-- An assignment message with no extractable URL. -/
def msgAssignNoUrl : EmailMsg :=
  ⟨"2", "MR assigned", some 5, "GitLab assigned merge request 5 to you, see the site"⟩

/-- An assignment message with an extractable URL. -/
def msgAssignUrl : EmailMsg :=
  ⟨"3", "MR", some 5, "x was added as an assignee <https://h.e/g/p/-/merge_requests/7>."⟩

/-- Twenty-one single-line changes, below the default configured ceilings but
above the hard-coded MCP cap. -/
def changes21 : List Change := List.replicate 21 ⟨"a.py", "a.py", "+x"⟩

/-- A change whose diff is a single line of 2001 characters: below the default
per-file line ceiling, above the hard-coded MCP character cap. -/
def changeLongLine : Change := ⟨"a.py", "a.py", ⟨List.replicate 2001 'x'⟩⟩

/-! ### General lemmas about the string primitives -/

/-- Appending strings appends their character lists. -/
theorem data_append (s t : String) : (s ++ t).data = s.data ++ t.data := rfl

/-- Unfolding lemma for `pyLower`. -/
theorem pyLower_data (s : String) : (pyLower s).data = s.data.map Char.toLower := rfl

/-- A list is a Boolean prefix of itself followed by anything. -/
theorem isPrefixB_append_self (l t : List Char) : isPrefixB l (l ++ t) = true := by
  induction l with
  | nil => rfl
  | cons a as ih => simp [isPrefixB, ih]

/-- A list occurs in itself followed by anything. -/
theorem isSubstring_self_append (n b : List Char) : isSubstring n (n ++ b) = true := by
  cases n with
  | nil =>
    cases b with
    | nil => rfl
    | cons c t => simp [isSubstring, isPrefixB]
  | cons x xs =>
    rw [show ((x :: xs) ++ b) = x :: (xs ++ b) from rfl]
    simp only [isSubstring, Bool.or_eq_true]
    exact Or.inl (isPrefixB_append_self (x :: xs) b)

/-- A needle occurs in any list that contains it contiguously. -/
theorem isSubstring_append_middle (a n b : List Char) :
    isSubstring n (a ++ n ++ b) = true := by
  induction a with
  | nil => simpa using isSubstring_self_append n b
  | cons c a' ih =>
    rw [show ((c :: a') ++ n ++ b) = c :: (a' ++ n ++ b) from rfl]
    simp only [isSubstring, Bool.or_eq_true]
    exact Or.inr ih

/-! ### Claim C4 — dedupe monotonicity and persistence round-trip -/

/-- Membership in the processed set survives any later sequence of adds. -/
theorem mem_foldl_add (ops : List String) (s : JSONEmailStorage) (x : String)
    (hx : x ∈ s.processed_emails) :
    x ∈ (ops.foldl JSONEmailStorage.add s).processed_emails := by
  induction ops generalizing s with
  | nil => exact hx
  | cons o ops ih =>
    exact ih _ (List.mem_insert_of_mem hx)

/-- Claim C4: once `add(id)` has been called, `contains(id)` is true no matter
which further adds happen on the same instance, and it is still true on a
fresh instance constructed over the file written by `save()`. -/
theorem claim_C4 (s : JSONEmailStorage) (email_id : String)
    (laterAdds : List String) (now : String) :
    (laterAdds.foldl JSONEmailStorage.add (s.add email_id)).containsId email_id = true ∧
    (JSONEmailStorage.loadFrom
      ((laterAdds.foldl JSONEmailStorage.add (s.add email_id)).save now)).containsId email_id
      = true := by
  have hmem : email_id ∈ (laterAdds.foldl JSONEmailStorage.add (s.add email_id)).processed_emails :=
    mem_foldl_add laterAdds (s.add email_id) email_id (List.mem_insert_self _ _)
  constructor
  · simp only [JSONEmailStorage.containsId]
    exact List.elem_eq_true_of_mem hmem
  · simp only [JSONEmailStorage.containsId, JSONEmailStorage.loadFrom, JSONEmailStorage.save]
    exact List.elem_eq_true_of_mem hmem

/-! ### Claim C7 — classification markers and case-insensitivity -/

/-- Counterexample to claim C7 as stated: the fixed marker set of
`_is_gitlab_assignment_email` does NOT include "was added as a reviewer";
a reviewer notification containing that phrase (and no actual marker) is
classified `false`, although the claimed marker set would classify it
`true`. -/
theorem claim_C7_counterexample :
    is_gitlab_assignment_email "" "John was added as a reviewer to merge request X" = false ∧
    isSubstring "was added as a reviewer".data
      (pyLower ("" ++ " " ++ "John was added as a reviewer to merge request X")).data = true := by
  constructor
  · decide
  · decide

/-- Claim C7 as amended: classification is the case-insensitive substring
test against the actual marker set {"was added as an assignee",
"assigned you to merge request", "assigned merge request"} (the phrase
"was added as a reviewer" is not among the markers), and it is invariant
under any change of letter case of subject or body. -/
theorem claim_C7_amended (subject body subject' body' : String)
    (hs : pyLower subject' = pyLower subject) (hb : pyLower body' = pyLower body) :
    is_gitlab_assignment_email subject' body' = is_gitlab_assignment_email subject body ∧
    (is_gitlab_assignment_email subject body = true ↔
      ∃ ind ∈ assignment_indicators,
        isSubstring ind.data (pyLower (subject ++ " " ++ body)).data = true) := by
  have hs' := congrArg String.data hs
  have hb' := congrArg String.data hb
  simp only [pyLower_data] at hs' hb'
  have e : (pyLower (subject' ++ " " ++ body')).data
      = (pyLower (subject ++ " " ++ body)).data := by
    simp only [pyLower_data, data_append, List.map_append, hs', hb']
  constructor
  · simp only [is_gitlab_assignment_email, e]
  · simp only [is_gitlab_assignment_email, List.any_eq_true]

/-- Witness for C7 (amended): concrete instantiation at an upper-cased
subject. -/
theorem claim_C7_witness :
    is_gitlab_assignment_email "WAS ADDED AS AN ASSIGNEE" "x"
      = is_gitlab_assignment_email "was added as an assignee" "x" ∧
    (is_gitlab_assignment_email "was added as an assignee" "x" = true ↔
      ∃ ind ∈ assignment_indicators,
        isSubstring ind.data (pyLower ("was added as an assignee" ++ " " ++ "x")).data = true) :=
  claim_C7_amended "was added as an assignee" "x" "WAS ADDED AS AN ASSIGNEE" "x"
    (by decide) (by decide)

/-! ### Claim C1 — state gate -/

/-- Claim C1 as amended: an event whose fetched state (lowercased) is outside
the allow-list stops at the state gate — it takes the dedicated skip exit,
and none of fetch-changes, summarize or post-comment is called — but the
function returns `False`, the same boolean as a failure, and the queue
consumer in main.py consequently logs it as a failed MR. -/
theorem claim_C1_amended (allowedStates : List String) (env : OrchestratorEnv)
    (pr : String × Nat) (mr : MRMeta)
    (hp : env.parseReply = .ok pr) (hm : env.metadataReply = .ok mr)
    (hstate : pyLower mr.state ∉ allowedStates) :
    process_merge_request allowedStates env
      = (.skippedState (pyLower mr.state), [.parse, .fetchMetadata]) ∧
    (process_merge_request allowedStates env).1.toBool = false ∧
    queue_log_line (process_merge_request allowedStates env).1.toBool
      = "❌ Failed to process MR" := by
  obtain ⟨p, m, ch, su, po⟩ := env
  simp only at hp hm
  subst hp hm
  simp [process_merge_request, hstate, PipelineResult.toBool, queue_log_line]

/-- Counterexample to claim C1 as stated: with the default allow-list and a
merged work item, the run does stop at the state gate with no downstream
call, but it is not treated as success-without-action — the returned boolean
is the failure value `false` (success returns `true`), and the caller logs
"Failed to process MR". -/
theorem claim_C1_counterexample :
    process_merge_request defaultAllowedStates envSkip
      = (.skippedState "merged", [.parse, .fetchMetadata]) ∧
    (process_merge_request defaultAllowedStates envSkip).1.toBool = false ∧
    PipelineResult.success.toBool = true ∧
    queue_log_line (process_merge_request defaultAllowedStates envSkip).1.toBool
      = "❌ Failed to process MR" := by
  refine ⟨by decide, by decide, rfl, by decide⟩

/-- Witness for C1 (amended): concrete instantiation at the merged-state
environment. -/
theorem claim_C1_witness :
    process_merge_request defaultAllowedStates envSkip
      = (.skippedState (pyLower "merged"), [.parse, .fetchMetadata]) ∧
    (process_merge_request defaultAllowedStates envSkip).1.toBool = false ∧
    queue_log_line (process_merge_request defaultAllowedStates envSkip).1.toBool
      = "❌ Failed to process MR" :=
  claim_C1_amended defaultAllowedStates envSkip ("g/p", 24)
    ⟨"Add feature", "", "merged", "feat", "main"⟩ rfl rfl (by decide)

/-! ### Claim C2 — stage short-circuit on fetch-changes failure -/

/-- Claim C2: whenever the fetch-changes call fails, no summarize call and no
post-comment call is made, and if the run reached the fetch-changes stage at
all it terminates right there with the fetch-changes failure. -/
theorem claim_C2 (allowedStates : List String) (env : OrchestratorEnv)
    (hch : env.changesReply = .fail) :
    (Stage.summarize ∉ (process_merge_request allowedStates env).2 ∧
     Stage.postComment ∉ (process_merge_request allowedStates env).2) ∧
    (Stage.fetchChanges ∈ (process_merge_request allowedStates env).2 →
      (process_merge_request allowedStates env).1 = .failed .fetchChanges) := by
  obtain ⟨p, m, ch, su, po⟩ := env
  simp only at hch
  subst hch
  cases p with
  | fail => simp [process_merge_request]
  | ok pr =>
    cases m with
    | fail => simp [process_merge_request]
    | ok mr =>
      by_cases hstate : pyLower mr.state ∈ allowedStates
      · simp [process_merge_request, hstate]
      · simp [process_merge_request, hstate]

/-- Witness for C2: concrete instantiation at the failing-changes
environment. -/
theorem claim_C2_witness :
    (Stage.summarize ∉ (process_merge_request defaultAllowedStates envChangesFail).2 ∧
     Stage.postComment ∉ (process_merge_request defaultAllowedStates envChangesFail).2) ∧
    (Stage.fetchChanges ∈ (process_merge_request defaultAllowedStates envChangesFail).2 →
      (process_merge_request defaultAllowedStates envChangesFail).1
        = .failed .fetchChanges) :=
  claim_C2 defaultAllowedStates envChangesFail rfl

/-! ### Poll-cycle lemmas shared by claims C5, C6 and C10 -/

/-- Every branch of the per-message step leaves the id of the examined
message in the processed set. -/
theorem process_message_mem_self (t : Int) (st : CycleState) (m : EmailMsg) :
    m.id ∈ (process_message t st m).processed := by
  unfold process_message
  split
  · next h => exact h
  · split
    · exact List.mem_insert_self _ _
    · split
      · split
        · exact List.mem_insert_self _ _
        · exact List.mem_insert_self _ _
      · exact List.mem_insert_self _ _

/-- The per-message step never removes ids from the processed set. -/
theorem process_message_mem_mono (t : Int) (st : CycleState) (m : EmailMsg)
    (x : String) (hx : x ∈ st.processed) :
    x ∈ (process_message t st m).processed := by
  unfold process_message
  split
  · exact hx
  · split
    · exact List.mem_insert_of_mem hx
    · split
      · split
        · exact List.mem_insert_of_mem hx
        · exact List.mem_insert_of_mem hx
      · exact List.mem_insert_of_mem hx

/-- An id in the processed set stays there over the rest of the cycle. -/
theorem foldl_mem_mono (t : Int) (msgs : List EmailMsg) (st : CycleState)
    (x : String) (hx : x ∈ st.processed) :
    x ∈ (msgs.foldl (process_message t) st).processed := by
  induction msgs generalizing st with
  | nil => exact hx
  | cons m msgs ih => exact ih _ (process_message_mem_mono t st m x hx)

/-- Every message examined by a cycle ends the cycle in the processed set. -/
theorem foldl_marks (t : Int) (msgs : List EmailMsg) (st : CycleState)
    (m : EmailMsg) (hm : m ∈ msgs) :
    m.id ∈ (msgs.foldl (process_message t) st).processed := by
  induction msgs generalizing st with
  | nil => cases hm
  | cons m' msgs ih =>
    rw [List.foldl_cons]
    rcases List.mem_cons.mp hm with h | h
    · subst h
      exact foldl_mem_mono t msgs _ m.id (process_message_mem_self t st m)
    · exact ih _ h

/-- A message whose id is already processed is skipped without any state
change. -/
theorem process_message_skip (t : Int) (st : CycleState) (m : EmailMsg)
    (h : m.id ∈ st.processed) : process_message t st m = st := by
  unfold process_message
  rw [if_pos h]

/-- A cycle whose every examined message is already processed does nothing. -/
theorem foldl_all_skipped (t : Int) (msgs : List EmailMsg) (st : CycleState)
    (h : ∀ m ∈ msgs, m.id ∈ st.processed) :
    msgs.foldl (process_message t) st = st := by
  induction msgs with
  | nil => rfl
  | cons m msgs ih =>
    rw [List.foldl_cons, process_message_skip t st m (h m (List.mem_cons_self m msgs))]
    exact ih (fun m' hm' => h m' (List.mem_cons_of_mem m hm'))

/-- New ids in the processed set can only come from examined messages. -/
theorem foldl_processed_from (t : Int) (msgs : List EmailMsg) (st : CycleState)
    (x : String) (hx : x ∈ (msgs.foldl (process_message t) st).processed) :
    x ∈ st.processed ∨ x ∈ msgs.map EmailMsg.id := by
  induction msgs generalizing st with
  | nil => exact Or.inl hx
  | cons m msgs ih =>
    rcases ih (process_message t st m) hx with h | h
    · have hstep : x ∈ st.processed ∨ x = m.id := by
        revert h
        unfold process_message
        split
        · exact Or.inl
        · split
          · intro h
            rcases List.mem_insert_iff.mp h with h | h
            exacts [Or.inr h, Or.inl h]
          · split
            · split
              · intro h
                rcases List.mem_insert_iff.mp h with h | h
                exacts [Or.inr h, Or.inl h]
              · intro h
                rcases List.mem_insert_iff.mp h with h | h
                exacts [Or.inr h, Or.inl h]
            · intro h
              rcases List.mem_insert_iff.mp h with h | h
              exacts [Or.inr h, Or.inl h]
      rcases hstep with h' | h'
      · exact Or.inl h'
      · exact Or.inr (by simp [h'])
    · exact Or.inr (by simp [List.mem_cons_of_mem, h])

/-- Events can only come from examined messages, carrying the extracted URL,
the message subject and the message date. -/
theorem foldl_events_from (t : Int) (msgs : List EmailMsg) (st : CycleState)
    (ev : String × String × Option Int)
    (hev : ev ∈ (msgs.foldl (process_message t) st).events) :
    ev ∈ st.events ∨
      ∃ m ∈ msgs, extract_gitlab_mr_url m.body = some ev.1 ∧
        ev.2.1 = m.subject ∧ ev.2.2 = m.date := by
  induction msgs generalizing st with
  | nil => exact Or.inl hev
  | cons m msgs ih =>
    rcases ih (process_message t st m) hev with h | h
    · have hstep : ev ∈ st.events ∨
          (extract_gitlab_mr_url m.body = some ev.1 ∧ ev.2.1 = m.subject ∧ ev.2.2 = m.date) := by
        revert h
        unfold process_message
        split
        · exact Or.inl
        · split
          · exact Or.inl
          · split
            · split
              · next url hurl =>
                intro h
                rcases List.mem_append.mp h with h | h
                · exact Or.inl h
                · rcases List.mem_singleton.mp h with h
                  subst h
                  exact Or.inr ⟨hurl, rfl, rfl⟩
              · exact Or.inl
            · exact Or.inl
      rcases hstep with h' | h'
      · exact Or.inl h'
      · exact Or.inr ⟨m, List.mem_cons_self m msgs, h'⟩
    · rcases h with ⟨m', hm', hrest⟩
      exact Or.inr ⟨m', List.mem_cons_of_mem m hm', hrest⟩

/-! ### Claim C6 — every examined message ends up marked processed -/

/-- Claim C6: (a) every message examined by a cycle — filtered as old,
rejected by classification, classified but without extractable URL, or
emitted — ends the cycle with its id in the processed set (a mailbox-contact
failure aborts the cycle before this loop and is the only way to leave
examined messages unmarked); and (b) in the classified-but-no-URL branch the
message is marked processed and a warning recorded, with no event emitted. -/
theorem claim_C6 :
    (∀ (startTime : Int) (processed : List String) (msgs : List EmailMsg),
      ∀ m ∈ lastFifty msgs, m.id ∈ (check_emails startTime processed msgs).processed) ∧
    (∀ (startTime : Int) (st : CycleState) (m : EmailMsg),
      m.id ∉ st.processed →
      dateBeforeStart startTime m.date = false →
      is_gitlab_assignment_email m.subject m.body = true →
      extract_gitlab_mr_url m.body = none →
      process_message startTime st m
        = ⟨st.processed.insert m.id, st.events, st.warnings ++ [m.subject]⟩) := by
  constructor
  · intro startTime processed msgs m hm
    exact foldl_marks startTime (lastFifty msgs) _ m hm
  · intro startTime st m h1 h2 h3 h4
    unfold process_message
    rw [if_neg h1, h2, if_neg (by simp), if_pos (by simp [h3]), h4]

/-- Witness for C6: a concrete assignment message without an extractable URL
is marked processed by the cycle, and its step records exactly one warning
and no event. -/
theorem claim_C6_witness :
    msgAssignNoUrl.id ∈ (check_emails 0 [] [msgAssignNoUrl]).processed ∧
    process_message 0 ⟨[], [], []⟩ msgAssignNoUrl
      = ⟨([] : List String).insert msgAssignNoUrl.id, [], [] ++ [msgAssignNoUrl.subject]⟩ := by
  refine ⟨claim_C6.1 0 [] [msgAssignNoUrl] msgAssignNoUrl (by decide), ?_⟩
  exact claim_C6.2 0 ⟨[], [], []⟩ msgAssignNoUrl (by decide) (by decide) (by decide) (by decide)

/-! ### Claim C5 — no double emission across consecutive cycles -/

/-- Claim C5: a second poll cycle over an unchanged mailbox window, starting
from the processed set produced by the first cycle, emits zero events (every
examined id was marked by the first cycle, so the second cycle skips it
before classification). -/
theorem claim_C5 (startTime : Int) (processed : List String) (msgs : List EmailMsg) :
    (check_emails startTime (check_emails startTime processed msgs).processed msgs).events
      = [] := by
  have hmarks : ∀ m ∈ lastFifty msgs,
      m.id ∈ (check_emails startTime processed msgs).processed := by
    intro m hm
    exact foldl_marks startTime (lastFifty msgs) _ m hm
  have h2 : check_emails startTime (check_emails startTime processed msgs).processed msgs
      = ⟨(check_emails startTime processed msgs).processed, [], []⟩ :=
    foldl_all_skipped startTime (lastFifty msgs) _ hmarks
  rw [h2]

/-! ### Claim C10 — only the 50 most recent messages are examined -/

/-- Claim C10: a cycle examines only the last-50 suffix of the mailbox search
result: at most 50 messages are examined, every id newly present in the
processed set is the id of one of them, and every emitted event originates
from one of them — older matching messages are neither classified nor marked
in that cycle. -/
theorem claim_C10 (startTime : Int) (processed : List String) (msgs : List EmailMsg) :
    (lastFifty msgs).length ≤ 50 ∧
    lastFifty msgs <:+ msgs ∧
    (∀ x ∈ (check_emails startTime processed msgs).processed,
      x ∈ processed ∨ x ∈ (lastFifty msgs).map EmailMsg.id) ∧
    (∀ ev ∈ (check_emails startTime processed msgs).events,
      ∃ m ∈ lastFifty msgs, extract_gitlab_mr_url m.body = some ev.1 ∧
        ev.2.1 = m.subject ∧ ev.2.2 = m.date) := by
  refine ⟨?_, ?_, ?_, ?_⟩
  · simp only [lastFifty, List.length_drop]
    omega
  · exact List.drop_suffix _ _
  · intro x hx
    exact foldl_processed_from startTime (lastFifty msgs) _ x hx
  · intro ev hev
    rcases foldl_events_from startTime (lastFifty msgs) _ ev hev with h | h
    · cases h
    · exact h

/-- Witness for C10: on a one-message mailbox, the id marked by the cycle is
the id of an examined message, and the emitted event originates from an
examined message. -/
theorem claim_C10_witness :
    ("3" ∈ ([] : List String) ∨ "3" ∈ (lastFifty [msgAssignUrl]).map EmailMsg.id) ∧
    (∃ m ∈ lastFifty [msgAssignUrl],
      extract_gitlab_mr_url m.body = some "https://h.e/g/p/-/merge_requests/7" ∧
      "MR" = m.subject ∧ (some 5 : Option Int) = m.date) := by
  have h := claim_C10 0 [] [msgAssignUrl]
  exact ⟨h.2.2.1 "3" (by decide),
    h.2.2.2 ("https://h.e/g/p/-/merge_requests/7", "MR", (some 5 : Option Int)) (by decide)⟩

/-! ### Lemmas about the URL matcher, for claim C3 -/

/-- A successful tail match ends in a digit. -/
theorem matchTailMR_last_digit (s m : List Char) (h : matchTailMR s = some m) :
    ∃ pre d, m = pre ++ [d] ∧ d.isDigit = true := by
  simp only [matchTailMR] at h
  split at h
  · split at h
    · cases h
    · next hne =>
      rcases List.eq_nil_or_concat ((s.drop sepMR.length).takeWhile Char.isDigit) with he | ⟨l', d, he⟩
      · rw [he] at hne
        simp at hne
      · rw [List.concat_eq_append] at he
        refine ⟨sepMR ++ l', d, ?_, ?_⟩
        · rw [← Option.some_inj.mp h, he, List.append_assoc]
        · have hd : d ∈ (s.drop sepMR.length).takeWhile Char.isDigit := by
            rw [he]
            exact List.mem_append_right _ (List.mem_singleton.mpr rfl)
          exact List.mem_takeWhile_imp hd
  · cases h

/-- A successful post-scheme match ends in a digit. -/
theorem matchAfterScheme_last_digit :
    ∀ (s m : List Char), matchAfterScheme s = some m →
      ∃ pre d, m = pre ++ [d] ∧ d.isDigit = true := by
  intro s
  induction s with
  | nil => intro m h; cases h
  | cons c rest ih =>
    intro m h
    unfold matchAfterScheme at h
    split at h
    · split at h
      · next m' heq =>
        rcases ih m' heq with ⟨pre, d, he, hd⟩
        refine ⟨c :: pre, d, ?_, hd⟩
        rw [← Option.some_inj.mp h, he]
        rfl
      · split at h
        · next m' heq =>
          rcases matchTailMR_last_digit rest m' heq with ⟨pre, d, he, hd⟩
          refine ⟨c :: pre, d, ?_, hd⟩
          rw [← Option.some_inj.mp h, he]
          rfl
        · cases h
    · cases h

/-- A successful anchored match of the whole regex ends in a digit. -/
theorem matchUrlAt_last_digit (s m : List Char) (h : matchUrlAt s = some m) :
    ∃ pre d, m = pre ++ [d] ∧ d.isDigit = true := by
  unfold matchUrlAt at h
  split at h
  · rcases Option.map_eq_some'.mp h with ⟨m', heq, rfl⟩
    rcases matchAfterScheme_last_digit _ m' heq with ⟨pre, d, he, hd⟩
    exact ⟨httpsPrefix ++ pre, d, by rw [he, List.append_assoc], hd⟩
  · split at h
    · rcases Option.map_eq_some'.mp h with ⟨m', heq, rfl⟩
      rcases matchAfterScheme_last_digit _ m' heq with ⟨pre, d, he, hd⟩
      exact ⟨httpPrefix ++ pre, d, by rw [he, List.append_assoc], hd⟩
    · cases h

/-- Stripping a character that is not the final character changes nothing. -/
theorem pyRstrip_of_last_ne (pre : List Char) (d ch : Char) (h : (d == ch) = false) :
    pyRstrip ch (pre ++ [d]) = pre ++ [d] := by
  unfold pyRstrip
  rw [List.reverse_append, List.reverse_singleton, List.singleton_append,
    List.dropWhile_cons_of_neg (by simp [h]), List.reverse_cons, List.reverse_reverse]

/-- The rstrip calls of `_extract_gitlab_mr_url` never change a regex match,
because every match ends in a digit while only trailing `>` and `.` are
stripped. -/
theorem pyRstrip_matchUrlAt (s m : List Char) (h : matchUrlAt s = some m) :
    pyRstrip '.' (pyRstrip '>' m) = m := by
  rcases matchUrlAt_last_digit s m h with ⟨pre, d, he, hd⟩
  have hgt : (d == '>') = false := by
    refine beq_eq_false_iff_ne.mpr (fun e => ?_)
    rw [e] at hd
    exact absurd hd (by decide)
  have hdot : (d == '.') = false := by
    refine beq_eq_false_iff_ne.mpr (fun e => ?_)
    rw [e] at hd
    exact absurd hd (by decide)
  rw [he, pyRstrip_of_last_ne pre d '>' hgt, pyRstrip_of_last_ne pre d '.' hdot]

/-- The left-to-right search returns the match at the first matching
position. -/
theorem reSearchMR_of_first (pre url post : List Char)
    (hmatch : matchUrlAt (url ++ post) = some url)
    (hpre : ∀ i < pre.length, matchUrlAt ((pre ++ (url ++ post)).drop i) = none) :
    reSearchMR (pre ++ (url ++ post)) = some url := by
  induction pre with
  | nil =>
    rw [List.nil_append]
    cases e : url ++ post with
    | nil =>
      rw [e] at hmatch
      have h0 : matchUrlAt ([] : List Char) = none := by decide
      rw [h0] at hmatch
      exact Option.noConfusion hmatch
    | cons c rest =>
      rw [e] at hmatch
      unfold reSearchMR
      rw [hmatch]
  | cons a pre' ih =>
    rw [show ((a :: pre') ++ (url ++ post)) = a :: (pre' ++ (url ++ post)) from rfl]
    have h0 : matchUrlAt (a :: (pre' ++ (url ++ post))) = none := by
      have := hpre 0 (by simp)
      simpa using this
    unfold reSearchMR
    rw [h0]
    exact ih (fun i hi => by
      have := hpre (i + 1) (by simpa using Nat.succ_lt_succ hi)
      simpa using this)

/-! ### Claim C3 — extraction returns the unique matching URL -/

/-- Claim C3: if the body decomposes as junk, then the reference URL (a
complete anchored match of the pattern), then trailing junk, with no match
starting inside the leading junk — the "exactly one matching reference URL"
situation — then extraction returns exactly that URL: the enclosing angle
brackets and trailing punctuation around it are never part of the match, and
the rstrip calls remove nothing from it. -/
theorem claim_C3 (pre url post : List Char)
    (hmatch : matchUrlAt (url ++ post) = some url)
    (hpre : ∀ i < pre.length, matchUrlAt ((pre ++ (url ++ post)).drop i) = none) :
    extract_gitlab_mr_url ⟨pre ++ (url ++ post)⟩ = some ⟨url⟩ := by
  unfold extract_gitlab_mr_url
  rw [show (⟨pre ++ (url ++ post)⟩ : String).data = pre ++ (url ++ post) from rfl]
  rw [reSearchMR_of_first pre url post hmatch hpre]
  show some (⟨pyRstrip '.' (pyRstrip '>' url)⟩ : String) = some ⟨url⟩
  rw [pyRstrip_matchUrlAt (url ++ post) url hmatch]

/-- Witness for C3: the body from the spec example, containing exactly the
bracketed reference with a trailing period, extracts to the bare URL. -/
theorem claim_C3_witness :
    extract_gitlab_mr_url "<https://host.example/g/p/-/merge_requests/24>."
      = some "https://host.example/g/p/-/merge_requests/24" := by
  have h := claim_C3 "<".data "https://host.example/g/p/-/merge_requests/24".data ">.".data
    (by decide) (by decide)
  have e1 : ("<https://host.example/g/p/-/merge_requests/24>." : String)
      = ⟨"<".data ++ ("https://host.example/g/p/-/merge_requests/24".data ++ ">.".data)⟩ := by
    decide
  have e2 : ("https://host.example/g/p/-/merge_requests/24" : String)
      = ⟨"https://host.example/g/p/-/merge_requests/24".data⟩ := by
    decide
  rw [e1, e2]
  exact h

/-! ### Lemmas about the split primitives, for claim C8 -/

/-- Unfolding helper: `splitOnList` at the concrete separator. -/
theorem splitOnList_sepMR (s : List Char) :
    splitOnList sepMR s = splitGo '/' "-/merge_requests/".data s.length s := rfl

/-- With no occurrence of the separator and enough fuel, a split returns the
whole input. -/
theorem splitGo_of_no_occurrence (s₀ : Char) (sep : List Char) :
    ∀ (s : List Char) (fuel : Nat), s.length ≤ fuel →
      (∀ i, isPrefixB (s₀ :: sep) (s.drop i) = false) →
      splitGo s₀ sep fuel s = [s] := by
  intro s
  induction s with
  | nil => intro fuel _ _; cases fuel <;> rfl
  | cons c rest ih =>
    intro fuel hf h
    cases fuel with
    | zero => simp at hf
    | succ f =>
      have h0 : isPrefixB (s₀ :: sep) (c :: rest) = false := by
        have := h 0
        simpa using this
      unfold splitGo
      rw [h0]
      simp only [Bool.false_eq_true, if_false]
      rw [ih f (by simp at hf; omega) (fun i => by have := h (i + 1); simpa using this)]

/-- A split whose input has exactly one separator occurrence, sitting between
`a` and `b`, returns the two parts (given enough fuel). -/
theorem splitGo_first_occurrence (s₀ : Char) (sep : List Char) :
    ∀ (a b : List Char) (fuel : Nat),
      (a ++ ((s₀ :: sep) ++ b)).length ≤ fuel →
      (∀ i < a.length, isPrefixB (s₀ :: sep) ((a ++ ((s₀ :: sep) ++ b)).drop i) = false) →
      (∀ i, isPrefixB (s₀ :: sep) (b.drop i) = false) →
      splitGo s₀ sep fuel (a ++ ((s₀ :: sep) ++ b)) = [a, b] := by
  intro a
  induction a with
  | nil =>
    intro b fuel hf _ hb
    rw [List.nil_append] at hf ⊢
    cases fuel with
    | zero => simp at hf
    | succ f =>
      rw [show ((s₀ :: sep) ++ b) = s₀ :: (sep ++ b) from rfl]
      unfold splitGo
      rw [show (s₀ :: (sep ++ b)) = ((s₀ :: sep) ++ b) from rfl, isPrefixB_append_self]
      simp only [if_true]
      rw [List.drop_left]
      rw [splitGo_of_no_occurrence s₀ sep b f (by simp at hf; omega) hb]
  | cons c a' ih =>
    intro b fuel hf hfirst hb
    cases fuel with
    | zero => simp at hf
    | succ f =>
      rw [show ((c :: a') ++ ((s₀ :: sep) ++ b)) = c :: (a' ++ ((s₀ :: sep) ++ b)) from rfl]
      have h0 : isPrefixB (s₀ :: sep) (c :: (a' ++ ((s₀ :: sep) ++ b))) = false := by
        have := hfirst 0 (by simp)
        simpa using this
      unfold splitGo
      rw [h0]
      simp only [Bool.false_eq_true, if_false]
      rw [ih b f (by simp at hf ⊢; omega) (fun i hi => by
        have := hfirst (i + 1) (by simpa using Nat.succ_lt_succ hi)
        simpa using this) hb]

/-- A single-character split with no occurrence returns the whole input. -/
theorem pySplitChar_of_not_mem (sep : Char) :
    ∀ s : List Char, sep ∉ s → pySplitChar sep s = [s] := by
  intro s
  induction s with
  | nil => intro _; rfl
  | cons c rest ih =>
    intro h
    have hc : (c == sep) = false :=
      beq_eq_false_iff_ne.mpr (fun e => h (by simp [e]))
    unfold pySplitChar
    rw [hc]
    simp only [Bool.false_eq_true, if_false]
    rw [ih (fun hm => h (List.mem_cons_of_mem c hm))]

/-- A bounded split never returns the empty list. -/
theorem pySplitCharN_ne_nil (sep : Char) : ∀ (m : Nat) (s : List Char),
    pySplitCharN sep m s ≠ [] := by
  intro m s
  induction s generalizing m with
  | nil => cases m <;> simp [pySplitCharN]
  | cons c rest ih =>
    cases m with
    | zero => simp [pySplitCharN]
    | succ n =>
      unfold pySplitCharN
      split
      · simp
      · split
        · simp
        · simp

/-- Unfolding equation for `pySplitCharN` on a nonempty input with remaining
split budget. -/
theorem pySplitCharN_cons (sep : Char) (n : Nat) (c : Char) (rest : List Char) :
    pySplitCharN sep (n + 1) (c :: rest)
      = if c == sep then [] :: pySplitCharN sep n rest
        else
          match pySplitCharN sep (n + 1) rest with
          | [] => [[c]]
          | h :: t => (c :: h) :: t := rfl

/-- Prepending separator-free characters extends the first piece of a bounded
split. -/
theorem pySplitCharN_prepend (sep : Char) (n : Nat) :
    ∀ (a s : List Char), sep ∉ a → s ≠ [] →
      pySplitCharN sep (n + 1) (a ++ s)
        = (a ++ (pySplitCharN sep (n + 1) s).headD []) :: (pySplitCharN sep (n + 1) s).tail := by
  intro a
  induction a with
  | nil =>
    intro s _ _
    cases e : pySplitCharN sep (n + 1) s with
    | nil => exact absurd e (pySplitCharN_ne_nil sep (n + 1) s)
    | cons h t => simp [e]
  | cons c a' ih =>
    intro s ha hs
    have hc : (c == sep) = false :=
      beq_eq_false_iff_ne.mpr (fun e => ha (by simp [e]))
    rw [show ((c :: a') ++ s) = c :: (a' ++ s) from rfl, pySplitCharN_cons]
    rw [if_neg (by simp [hc])]
    rw [ih s (fun hm => ha (List.mem_cons_of_mem c hm)) hs]
    simp

/-- An all-digit string contains no occurrence of the merge-request
separator. -/
theorem digits_no_sepMR (ds : List Char) (hds : ds.all Char.isDigit = true) :
    ∀ i, isPrefixB sepMR (ds.drop i) = false := by
  intro i
  cases e : ds.drop i with
  | nil => decide
  | cons y ys =>
    have hy : y ∈ ds := List.mem_of_mem_drop (by rw [e]; exact List.mem_cons_self y ys)
    have hydig : y.isDigit = true := by
      have := List.all_eq_true.mp hds y hy
      simpa using this
    have hne : ('/' == y) = false := by
      refine beq_eq_false_iff_ne.mpr (fun e2 => ?_)
      rw [← e2] at hydig
      exact absurd hydig (by decide)
    rw [show sepMR = '/' :: "-/merge_requests/".data from rfl]
    unfold isPrefixB
    rw [hne]
    simp

/-- A digit character is not a slash, question mark or hash, so the iid
segment survives the three head splits. -/
theorem digits_not_mem (ds : List Char) (hds : ds.all Char.isDigit = true)
    (c : Char) (hc : c.isDigit = false) : c ∉ ds := by
  intro hm
  have := List.all_eq_true.mp hds c hm
  simp [hc] at this

/-! ### Claim C8 — reference parsing -/

/-- Claim C8 as amended, three parts.  (1) Well-shaped references parse to
the expected fields: for any scheme-like prefix `p0` and host without
slashes, any project path, and any nonempty digit run, the URL
`p0//host/proj/‑/merge_requests/ds` parses to `(proj, value ds)` provided the
merge-request separator occurs nowhere before its explicit occurrence.
(2) A string with no occurrence of the separator fails to parse.  (3) When
the parse stage fails, the orchestrator aborts immediately: the result is
`failed(parse)` and no later call is made.  (The parser is, however, more
lenient than the http(s) URL shape — see the counterexample.) -/
theorem claim_C8_amended :
    (∀ (p0 host proj ds : List Char) (v : Nat),
      '/' ∉ p0 → '/' ∉ host →
      (∀ i < (p0 ++ '/' :: '/' :: (host ++ '/' :: proj)).length,
        isPrefixB sepMR
          (((p0 ++ '/' :: '/' :: (host ++ '/' :: proj)) ++ (sepMR ++ ds)).drop i) = false) →
      pyToNat ds = some v →
      parse_mr_url ⟨(p0 ++ '/' :: '/' :: (host ++ '/' :: proj)) ++ (sepMR ++ ds)⟩
        = some (⟨proj⟩, v)) ∧
    (∀ s : String, (∀ i < s.data.length, isPrefixB sepMR (s.data.drop i) = false) →
      parse_mr_url s = none) ∧
    (∀ (allowedStates : List String) (env : OrchestratorEnv),
      env.parseReply = .fail →
      process_merge_request allowedStates env = (.failed .parse, [.parse])) := by
  refine ⟨?_, ?_, ?_⟩
  · intro p0 host proj ds v hp0 hhost hfirst hv
    have hds : ds ≠ [] ∧ ds.all Char.isDigit = true := by
      by_contra hcon
      simp only [pyToNat] at hv
      rw [if_neg (by
        intro hc
        exact hcon ⟨hc.1, by simpa using hc.2⟩)] at hv
      exact Option.noConfusion hv
    have hsplit : splitOnList sepMR
        ((p0 ++ '/' :: '/' :: (host ++ '/' :: proj)) ++ (sepMR ++ ds))
        = [p0 ++ '/' :: '/' :: (host ++ '/' :: proj), ds] := by
      rw [splitOnList_sepMR]
      exact splitGo_first_occurrence '/' "-/merge_requests/".data
        (p0 ++ '/' :: '/' :: (host ++ '/' :: proj)) ds _ (le_refl _) hfirst
        (digits_no_sepMR ds hds.2)
    have hproj : pySplitCharN '/' 3 (p0 ++ '/' :: '/' :: (host ++ '/' :: proj))
        = [p0, [], host, proj] := by
      rw [pySplitCharN_prepend '/' 2 p0 ('/' :: '/' :: (host ++ '/' :: proj)) hp0 (by simp)]
      rw [show pySplitCharN '/' 3 ('/' :: '/' :: (host ++ '/' :: proj))
          = [] :: pySplitCharN '/' 2 ('/' :: (host ++ '/' :: proj)) from rfl]
      rw [show pySplitCharN '/' 2 ('/' :: (host ++ '/' :: proj))
          = [] :: pySplitCharN '/' 1 (host ++ '/' :: proj) from rfl]
      rw [pySplitCharN_prepend '/' 0 host ('/' :: proj) hhost (by simp)]
      rw [show pySplitCharN '/' 1 ('/' :: proj) = [] :: pySplitCharN '/' 0 proj from rfl]
      rw [show pySplitCharN '/' 0 proj = [proj] from by
        cases proj <;> rfl]
      simp
    have hiid : pySplitChar '/' ds = [ds] :=
      pySplitChar_of_not_mem '/' ds (digits_not_mem ds hds.2 '/' (by decide))
    have hiid2 : pySplitChar '?' ds = [ds] :=
      pySplitChar_of_not_mem '?' ds (digits_not_mem ds hds.2 '?' (by decide))
    have hiid3 : pySplitChar '#' ds = [ds] :=
      pySplitChar_of_not_mem '#' ds (digits_not_mem ds hds.2 '#' (by decide))
    unfold parse_mr_url
    rw [show (⟨(p0 ++ '/' :: '/' :: (host ++ '/' :: proj)) ++ (sepMR ++ ds)⟩ : String).data
        = (p0 ++ '/' :: '/' :: (host ++ '/' :: proj)) ++ (sepMR ++ ds) from rfl]
    rw [hsplit]
    simp [hproj, hiid, hiid2, hiid3, hv]
  · intro s hno
    have hno' : ∀ i, isPrefixB sepMR (s.data.drop i) = false := by
      intro i
      by_cases hi : i < s.data.length
      · exact hno i hi
      · rw [List.drop_eq_nil_of_le (by omega)]
        decide
    unfold parse_mr_url
    rw [splitOnList_sepMR,
      splitGo_of_no_occurrence '/' "-/merge_requests/".data s.data s.data.length
        (le_refl _) hno']
    rw [if_neg (by simp)]
  · intro allowedStates env hp
    obtain ⟨p, m, ch, su, po⟩ := env
    simp only at hp
    subst hp
    rfl

/-- Counterexample to claim C8 as stated: the parser also accepts strings
outside the http(s) URL shape — a slash path with no scheme parses
successfully instead of returning an error. -/
theorem claim_C8_counterexample :
    parse_mr_url "a/b/c/d/-/merge_requests/5" = some ("d", 5) ∧
    specHttpUrlShape "a/b/c/d/-/merge_requests/5" = false := by
  exact ⟨by decide, by decide⟩

/-- Witness for C8 (amended): the spec example URL parses to its project and
iid, a separator-free string fails to parse, and a failing parse aborts the
orchestrator at the parse stage. -/
theorem claim_C8_witness :
    parse_mr_url
      ⟨("https:".data ++ '/' :: '/' :: ("host.example".data ++ '/' :: "g/p".data))
        ++ (sepMR ++ "24".data)⟩ = some (⟨"g/p".data⟩, 24) ∧
    (⟨("https:".data ++ '/' :: '/' :: ("host.example".data ++ '/' :: "g/p".data))
        ++ (sepMR ++ "24".data)⟩ : String)
      = "https://host.example/g/p/-/merge_requests/24" ∧
    parse_mr_url "no reference in here" = none ∧
    process_merge_request defaultAllowedStates envParseFail
      = (.failed .parse, [.parse]) := by
  refine ⟨claim_C8_amended.1 "https:".data "host.example".data "g/p".data "24".data 24
      (by decide) (by decide) (by decide) (by decide),
    by decide,
    claim_C8_amended.2.1 "no reference in here" (by decide),
    claim_C8_amended.2.2 defaultAllowedStates envParseFail rfl⟩

/-! ### Lemmas about prompt concatenation, for claim C9 -/

/-- Concatenating piece lists appends the character data. -/
theorem concatStrings_data_append (xs ys : List String) :
    (concatStrings (xs ++ ys)).data = (concatStrings xs).data ++ (concatStrings ys).data := by
  induction xs with
  | nil => rfl
  | cons x xs ih =>
    rw [show ((x :: xs) ++ ys) = x :: (xs ++ ys) from rfl]
    simp only [concatStrings, data_append, ih, List.append_assoc]

/-- A needle occurs in any list admitting a decomposition around it. -/
theorem isSubstring_append_of (n l : List Char) (h : ∃ a b, l = a ++ (n ++ b)) :
    isSubstring n l = true := by
  obtain ⟨a, b, rfl⟩ := h
  rw [← List.append_assoc]
  exact isSubstring_append_middle a n b

/-! ### Claim C9 — summarization size ceilings -/

/-- Claim C9 as amended, about the configured REST backend
(`build_prompt_summarize`): at most `max_files` files enter the prompt; at
most `max_lines` diff lines of each file enter its section; when files are
dropped the prompt carries the explicit more-files note; when lines are
dropped the file section carries the explicit diff-truncated note; every
included file section occurs in the prompt; and the configured ceilings
default to 999999, effectively unlimited.  (The builder is total, so no
input errors; the separate MCP backend instead hard-caps at 20 files and
2000 diff characters — see the counterexample.) -/
theorem claim_C9_amended :
    (∀ (changes : List Change) (max_files : Nat),
      (changes.take (min changes.length max_files)).length ≤ max_files) ∧
    (∀ (c : Change) (max_lines : Nat),
      ((pySplitChar '\n' c.diff.data).take
        (min (pySplitChar '\n' c.diff.data).length max_lines)).length ≤ max_lines) ∧
    (∀ (title description : String) (changes : List Change)
        (source_branch target_branch : String) (max_files max_lines : Nat),
      max_files < changes.length →
      isSubstring (moreFilesNote changes.length (min changes.length max_files)).data
        (build_prompt_summarize title description changes source_branch target_branch
          max_files max_lines).data = true) ∧
    (∀ (c : Change) (max_lines : Nat),
      max_lines < (pySplitChar '\n' c.diff.data).length →
      isSubstring (diffTruncNote (pySplitChar '\n' c.diff.data).length max_lines).data
        (renderFileSection max_lines c).data = true) ∧
    (∀ (c : Change) (title description : String) (changes : List Change)
        (source_branch target_branch : String) (max_files max_lines : Nat),
      c ∈ changes.take (min changes.length max_files) →
      isSubstring (renderFileSection max_lines c).data
        (build_prompt_summarize title description changes source_branch target_branch
          max_files max_lines).data = true) ∧
    (maxFilesDefault = 999999 ∧ maxDiffLinesDefault = 999999) := by
  refine ⟨?_, ?_, ?_, ?_, ?_, rfl, rfl⟩
  · intro changes max_files
    simp only [List.length_take]
    omega
  · intro c max_lines
    simp only [List.length_take]
    omega
  · intro title description changes source_branch target_branch max_files max_lines h
    have hgt : changes.length > min changes.length max_files :=
      lt_of_le_of_lt (Nat.min_le_right _ _) h
    simp only [build_prompt_summarize]
    rw [if_pos hgt]
    apply isSubstring_append_of
    refine ⟨(restPromptHeader title description source_branch target_branch).data
        ++ (concatStrings ((changes.take (min changes.length max_files)).map
            (renderFileSection max_lines))).data,
      restPromptFooter.data, ?_⟩
    simp [data_append, List.append_assoc]
  · intro c max_lines h
    simp only [renderFileSection]
    rw [if_pos h]
    apply isSubstring_append_of
    refine ⟨(fileHeaderLine c).data ++ ("```diff\n".data
        ++ (⟨joinWithNL ((pySplitChar '\n' c.diff.data).take
            (min (pySplitChar '\n' c.diff.data).length max_lines))⟩ : String).data),
      "\n```\n".data, ?_⟩
    simp [data_append, List.append_assoc]
  · intro c title description changes source_branch target_branch max_files max_lines hc
    obtain ⟨s, t, hst⟩ := List.append_of_mem hc
    simp only [build_prompt_summarize]
    apply isSubstring_append_of
    refine ⟨(restPromptHeader title description source_branch target_branch).data
        ++ (concatStrings (s.map (renderFileSection max_lines))).data,
      (concatStrings (t.map (renderFileSection max_lines))).data
        ++ ((if changes.length > min changes.length max_files
            then moreFilesNote changes.length (min changes.length max_files) else "").data
          ++ restPromptFooter.data), ?_⟩
    rw [hst]
    simp only [List.map_append, List.map_cons]
    rw [show (renderFileSection max_lines c :: t.map (renderFileSection max_lines))
        = [renderFileSection max_lines c] ++ t.map (renderFileSection max_lines) from rfl]
    simp only [data_append, concatStrings_data_append]
    simp [data_append, concatStrings, List.append_assoc]

/-- Counterexample to claim C9 as stated: the MCP backend
(`_summarize_code_changes`) ignores the configured ceilings.  With 21
one-line files — far below the effectively-unlimited configured defaults —
it summarizes only the first 20 and appends a dropped-files note, and a
single 2001-character diff line — one line, below the default line ceiling —
is truncated at 2000 characters. -/
theorem claim_C9_counterexample :
    (mcpFilesSummary changes21).length = 20 ∧
    changes21.length = 21 ∧
    21 ≤ maxFilesDefault ∧
    isSubstring (mcpMoreFilesNote changes21.length).data
      (mcp_summarize_user_prompt "t" "d" changes21 "s" "b").data = true ∧
    (mcpFileSummary changeLongLine).diff
      = (⟨List.replicate 2000 'x'⟩ : String) ++ "\n... (truncated)" ∧
    (pySplitChar '\n' changeLongLine.diff.data).length = 1 ∧
    1 ≤ maxDiffLinesDefault := by
  have hlen : changeLongLine.diff.data = List.replicate 2001 'x' := rfl
  have hnomem : '\n' ∉ changeLongLine.diff.data := by
    rw [hlen]
    intro hm
    have := List.eq_of_mem_replicate hm
    exact absurd this (by decide)
  refine ⟨by decide, by decide, by decide, ?_, ?_, ?_, by decide⟩
  · simp only [mcp_summarize_user_prompt]
    rw [if_pos (by decide : changes21.length > 20)]
    apply isSubstring_append_of
    refine ⟨(mcpPromptIntro "t" "d" changes21.length "s" "b").data
        ++ (concatStrings ((mcpFilesSummary changes21).map mcpFileBlock)).data,
      "\n\nProvide a clear, structured summary of these changes.".data, ?_⟩
    simp [data_append, List.append_assoc]
  · simp only [mcpFileSummary]
    rw [if_pos (by
      show changeLongLine.diff.length > 2000
      rw [show changeLongLine.diff.length = changeLongLine.diff.data.length from rfl, hlen,
        List.length_replicate]
      omega)]
    rw [show changeLongLine.diff.data.take 2000 = List.replicate 2000 'x' from by
      rw [hlen, List.take_replicate, Nat.min_eq_left (by omega)]]
  · rw [pySplitChar_of_not_mem '\n' changeLongLine.diff.data hnomem]
    rfl

/-- Witness for C9 (amended): concrete instantiations of the three
hypothesis-bearing conjuncts on small inputs. -/
theorem claim_C9_witness :
    isSubstring (moreFilesNote changes21.length (min changes21.length 1)).data
      (build_prompt_summarize "t" "d" changes21 "s" "b" 1 999999).data = true ∧
    isSubstring
      (diffTruncNote (pySplitChar '\n' (Change.mk "a" "a" "+x\n+y").diff.data).length 1).data
      (renderFileSection 1 (Change.mk "a" "a" "+x\n+y")).data = true ∧
    isSubstring (renderFileSection 999999 (Change.mk "a.py" "a.py" "+x")).data
      (build_prompt_summarize "t" "d" changes21 "s" "b" 999999 999999).data = true := by
  refine ⟨?_, ?_, ?_⟩
  · exact claim_C9_amended.2.2.1 "t" "d" changes21 "s" "b" 1 999999 (by decide)
  · exact claim_C9_amended.2.2.2.1 (Change.mk "a" "a" "+x\n+y") 1 (by decide)
  · exact claim_C9_amended.2.2.2.2.1 (Change.mk "a.py" "a.py" "+x") "t" "d" changes21 "s" "b"
      999999 999999 (by decide)
